import Mathlib

/-!
# Verification of the `ner_fst` finite-state transducer

Shallow embedding of the repository's three modules:

* `state.py`  — the `State` class (`add_transition`, `get_next_state`);
* `fst.py`    — the `FiniteStateTransducer` class (`__init__`, `__call__`,
  `__process` and its private helpers);
* `config.py` — the reference `TransducerConfig` data.

Python's `re` module is external to the repository; it is modelled by a
regular-expression AST with Brzozowski-derivative full-match semantics
(`Regex.fullmatch` models `re.fullmatch` returning a truthy match object),
plus an `invalid` pattern constructor modelling a source string that fails
to compile (`re.error`).  Python exceptions are modelled with `Except`:
`KeyError` (dict lookup misses), `re.error`, `ValueError`, and the
`AttributeError` raised when `input_text` is `None`.

State objects are identified by their (unique-per-dict) names: in the
Python code every `State` reference that the run loop can hold is exactly
the value stored in the `self.states` dict under that state's name, and
the dict is never rebound after `__setup_states`, so indirection through
names is observationally identical to object references.
-/

deriving instance DecidableEq for Except

namespace NerFst

/-! ## Model of the Python `re` library (full-match semantics) -/

/-- Regular-expression AST.  `cls p` is a single-character class given by
its membership predicate (covers literal characters, ranges such as
`[A-Z]`, and escapes such as `\d`). -/
inductive Regex : Type
  | emptyR : Regex
  | eps : Regex
  | cls (p : Char → Bool) : Regex
  | cat (a b : Regex) : Regex
  | alt (a b : Regex) : Regex
  | star (a : Regex) : Regex

/-- Does the regex accept the empty string? -/
def nullable : Regex → Bool
  | .emptyR => false
  | .eps => true
  | .cls _ => false
  | .cat a b => nullable a && nullable b
  | .alt a b => nullable a || nullable b
  | .star _ => true

/-- Smart concatenation (keeps derivatives small). -/
def mkCat : Regex → Regex → Regex
  | .emptyR, _ => .emptyR
  | _, .emptyR => .emptyR
  | .eps, b => b
  | a, .eps => a
  | a, b => .cat a b

/-- Smart alternation (keeps derivatives small). -/
def mkAlt : Regex → Regex → Regex
  | .emptyR, b => b
  | a, .emptyR => a
  | a, b => .alt a b

/-- Brzozowski derivative of a regex by one character. -/
def deriv : Regex → Char → Regex
  | .emptyR, _ => .emptyR
  | .eps, _ => .emptyR
  | .cls p, c => if p c then .eps else .emptyR
  | .cat a b, c =>
      if nullable a then mkAlt (mkCat (deriv a c) b) (deriv b c)
      else mkCat (deriv a c) b
  | .alt a b, c => mkAlt (deriv a c) (deriv b c)
  | .star a, c => mkCat (deriv a c) (.star a)

/-- Full-string match: the whole input must satisfy the pattern.  Models
Python's `re.fullmatch(pattern, s)` being truthy (a substring or prefix
match is not enough). -/
def Regex.fullmatch (r : Regex) (s : String) : Bool :=
  nullable (s.data.foldl deriv r)

/-- Model of a regex pattern source string as handed to `re.fullmatch`:
either it compiles to a regex, or it is syntactically invalid and every
attempt to use it raises `re.error`. -/
inductive Pattern : Type
  | ok (r : Regex) : Pattern
  | invalid : Pattern

/-- Python exceptions reachable in the embedded code. -/
inductive Err : Type
  | keyError (k : String) : Err
  | reError : Err
  | valueError : Err
  | attributeError : Err
deriving DecidableEq

/-- Model of calling `re.fullmatch(regex, input_text)` on a stored pattern
source: an invalid pattern raises `re.error` at this (match-time) call;
a valid one reports whether the whole string matches. -/
def reFullmatch : Pattern → String → Except Err Bool
  | .ok r, s => .ok (r.fullmatch s)
  | .invalid, _ => .error .reError

/-! ## `state.py` — the `State` class -/

/-- `State.__init__`: a name, the (stored but unread) `is_final` flag, and
the ordered transition list.  A transition stores the pattern source, the
target state's name (standing for the target `State` object, see module
comment) and the optional output label. -/
structure StateData : Type where
  name : String
  is_final : Bool
  transitions : List (Pattern × String × Option String)

/-- `State.add_transition`: append one transition to the list.  The raw
pattern is stored as-is; nothing is compiled or checked here. -/
def StateData.add_transition (st : StateData) (regex : Pattern)
    (next_state : String) (output : Option String) : StateData :=
  { st with transitions := st.transitions ++ [(regex, next_state, output)] }

/-- The scan loop inside `State.get_next_state`: try transitions in list
order, return the first whose pattern fully matches, `(None, None)` if
none does.  `re.error` from an invalid pattern propagates. -/
def scanTransitions : List (Pattern × String × Option String) → String →
    Except Err (Option String × Option String)
  | [], _ => .ok (none, none)
  | (pat, nxt, out) :: rest, s =>
      match reFullmatch pat s with
      | .error e => .error e
      | .ok true => .ok (some nxt, out)
      | .ok false => scanTransitions rest s

/-- `State.get_next_state`. -/
def StateData.get_next_state (st : StateData) (input_text : String) :
    Except Err (Option String × Option String) :=
  scanTransitions st.transitions input_text

/-! ## The `self.states` dict -/

/-- `self.states`: a string-keyed dict of `State` objects, as an
association list with unique keys. -/
abbrev Dict := List (String × StateData)

/-- Dict read `self.states[k]`, `none` when `k` is absent (Python raises
`KeyError` at each use site; the sites below turn `none` into that). -/
def dictGet? : Dict → String → Option StateData
  | [], _ => none
  | (k, v) :: rest, key => if k = key then some v else dictGet? rest key

/-- Dict write `self.states[k] = v`: overwrite in place, or append a new
key. -/
def dictSet : Dict → String → StateData → Dict
  | [], key, v => [(key, v)]
  | (k, v') :: rest, key, v =>
      if k = key then (key, v) :: rest else (k, v') :: dictSet rest key v

/-! ## `config.py` — configuration data shape -/

/-- The `config` dict consumed by `FiniteStateTransducer.__init__`.
`transitions` entries are the variable-arity tuples
`(from_state, regex, to_state, *output)`, normalised (as
`__setup_transitions` does with `output[0] if output else None`) to an
optional label. -/
structure Config : Type where
  states : List (String × Bool)
  initial_state : String
  transitions : List (String × Pattern × String × Option String)

/-! ## `fst.py` — the `FiniteStateTransducer` class -/

/-- The transducer after construction: the states dict plus
`self.current_state`, held by name (see module comment). -/
structure FiniteStateTransducer : Type where
  states : Dict
  current_state : String

/-- `__setup_states` / `__add_state`: one `State(name, is_final)` per
configured state, inserted in order (a duplicate name overwrites). -/
def addStates : Dict → List (String × Bool) → Dict
  | d, [] => d
  | d, (nm, fin) :: rest => addStates (dictSet d nm ⟨nm, fin, []⟩) rest

/-- `__add_transition`: `self.states[from_state].add_transition(regex,
self.states[to_state], output)`.  Either dict lookup may raise
`KeyError`; the pattern is stored without being compiled. -/
def addTransitionD (d : Dict) (from_state : String) (regex : Pattern)
    (to_state : String) (output : Option String) : Except Err Dict :=
  match dictGet? d from_state with
  | none => .error (.keyError from_state)
  | some fromSt =>
      match dictGet? d to_state with
      | none => .error (.keyError to_state)
      | some _ =>
          .ok (dictSet d from_state
                (fromSt.add_transition regex to_state output))

/-- `__setup_transitions`: add each configured transition in order; the
first failure aborts construction. -/
def addTransitions : Dict → List (String × Pattern × String × Option String) →
    Except Err Dict
  | d, [] => .ok d
  | d, (f, p, t, o) :: rest =>
      match addTransitionD d f p t o with
      | .error e => .error e
      | .ok d' => addTransitions d' rest

/-- `FiniteStateTransducer.__init__`: set up states, then transitions,
then `__set_initial_state(self.config["initial_state"])` (a `KeyError`
when the initial state is unknown). -/
def FiniteStateTransducer.init (config : Config) :
    Except Err FiniteStateTransducer :=
  let d := addStates [] config.states
  match addTransitions d config.transitions with
  | .error e => .error e
  | .ok d' =>
      match dictGet? d' config.initial_state with
      | none => .error (.keyError config.initial_state)
      | some _ => .ok ⟨d', config.initial_state⟩

/-! ### `__process` — the token loop -/

/-- Python whitespace for `str.split()` (ASCII part; the shipped
configuration and all inputs considered here are ASCII). -/
def pyIsSpace (c : Char) : Bool :=
  c = ' ' || c = '\t' || c = '\n' || c = '\r' || c = '\x0b' || c = '\x0c'

/-- Accumulator pass for `str.split()`: `acc` holds the reversed
characters of the token being read. -/
def pySplitAux : List Char → List Char → List String
  | [], acc => if acc.isEmpty then [] else [String.mk acc.reverse]
  | c :: cs, acc =>
      if pyIsSpace c then
        if acc.isEmpty then pySplitAux cs []
        else String.mk acc.reverse :: pySplitAux cs []
      else pySplitAux cs (c :: acc)

/-- `input_text.split()`: split on whitespace runs, no empty tokens. -/
def pySplitWs (s : String) : List String :=
  pySplitAux s.data []

/-- `token.strip(".")`: remove every leading and trailing `.`. -/
def stripDots (s : String) : String :=
  String.mk (((s.data.dropWhile (fun c => c = '.')).reverse.dropWhile
    (fun c => c = '.')).reverse)

/-- Lines 124–126 of `fst.py`: split on whitespace, then strip dots. -/
def tokenize (input_text : String) : List String :=
  (pySplitWs input_text).map stripDots

/-- Python truthiness of an optional string (`if output:` /
`if ... and category:`): `None` and `""` are falsy. -/
def truthy : Option String → Bool
  | none => false
  | some s => !(s = "")

/-- The loop-local state of `__process`: `self.current_state` (by name),
the local `buffer` and `category`, and the accumulated `results`. -/
structure LoopState : Type where
  current : String
  buffer : List String
  category : Option String
  results : List (String × String)
deriving DecidableEq

/-- Lines 140–142 (and 154–156) of `fst.py`: flush the buffer into the
results when `buffer` is non-empty and `category` is truthy. -/
def flushOf (ls : LoopState) : List (String × String) :=
  if !ls.buffer.isEmpty && truthy ls.category then
    ls.results ++ [(String.intercalate " " ls.buffer, ls.category.getD "")]
  else ls.results

/-- The body of the `for token in tokens` loop in `__process`
(lines 131–152).  On a failed match: flush, reset hard-coded to
`self.states["q0"]` with empty buffer and `None` category, retry the same
token exactly once from there, and on a second failure leave the cursor
at the reset state.  The top-level dict read models the loop holding the
current `State` object (it cannot miss for a constructed transducer). -/
def stepToken (d : Dict) (ls : LoopState) (token : String) :
    Except Err LoopState :=
  match dictGet? d ls.current with
  | none => .error (.keyError ls.current)
  | some cur =>
      match cur.get_next_state token with
      | .error e => .error e
      | .ok (some nxt, output) =>
          .ok { current := nxt, buffer := ls.buffer ++ [token],
                category := if truthy output then output else ls.category,
                results := ls.results }
      | .ok (none, _) =>
          let results := flushOf ls
          match dictGet? d "q0" with
          | none => .error (.keyError "q0")
          | some q0st =>
              match q0st.get_next_state token with
              | .error e => .error e
              | .ok (some nxt, output) =>
                  .ok { current := nxt, buffer := [token],
                        category := if truthy output then output else none,
                        results := results }
              | .ok (none, _) =>
                  .ok { current := "q0", buffer := [], category := none,
                        results := results }

/-- The whole `for` loop; a raised exception aborts the call. -/
def runTokens (d : Dict) (ls : LoopState) : List String → Except Err LoopState
  | [] => .ok ls
  | t :: ts =>
      match stepToken d ls t with
      | .error e => .error e
      | .ok ls' => runTokens d ls' ts

/-- `__process(input_text)`: tokenize, run the loop starting from the
instance's `current_state` with a fresh local `buffer`/`category`, flush
once more at the end, and return the results together with the updated
instance (only `current_state` is written back; `buffer` and `category`
are locals that die with the call). -/
def FiniteStateTransducer.process (fst : FiniteStateTransducer)
    (input_text : String) :
    Except Err (List (String × String) × FiniteStateTransducer) :=
  match runTokens fst.states
      { current := fst.current_state, buffer := [], category := none,
        results := [] } (tokenize input_text) with
  | .error e => .error e
  | .ok ls => .ok (flushOf ls, ⟨fst.states, ls.current⟩)

/-- `__call__(process="NER", **kwargs)`: dispatch to `__process` only for
`"NER"`, otherwise raise `ValueError` before touching any state.  A
missing `input_text` kwarg arrives as `None` and blows up on
`None.split()` inside `__process`, modelled here as the
`AttributeError`. -/
def FiniteStateTransducer.call (fst : FiniteStateTransducer)
    (process : String) (input_text : Option String) :
    Except Err (List (String × String) × FiniteStateTransducer) :=
  if process = "NER" then
    match input_text with
    | some s => fst.process s
    | none => .error .attributeError
  else .error .valueError

/-! ## Regex construction helpers (translation of pattern syntax) -/

/-- A single literal character. -/
def chR (c : Char) : Regex := .cls (fun x => x = c)

/-- A literal string (sequence of literal characters). -/
def strRe (s : String) : Regex :=
  s.data.foldr (fun c r => .cat (chR c) r) .eps

/-- `r+`. -/
def plusRe (r : Regex) : Regex := .cat r (.star r)

/-- `r?`. -/
def optRe (r : Regex) : Regex := .alt .eps r

/-- `r{n}`. -/
def repRe (r : Regex) : Nat → Regex
  | 0 => .eps
  | n + 1 => .cat r (repRe r n)

/-- `r{n,}`. -/
def atLeastRe (r : Regex) (n : Nat) : Regex := .cat (repRe r n) (.star r)

/-- `\d` (ASCII digits; the shipped patterns only meet ASCII input). -/
def digitC : Regex := .cls (fun c => '0' ≤ c && c ≤ '9')

/-- `[A-Z]`. -/
def upperC : Regex := .cls (fun c => 'A' ≤ c && c ≤ 'Z')

/-- `[a-z]`. -/
def lowerC : Regex := .cls (fun c => 'a' ≤ c && c ≤ 'z')

/-- `[A-Za-z]`. -/
def alphaC : Regex :=
  .cls (fun c => ('A' ≤ c && c ≤ 'Z') || ('a' ≤ c && c ≤ 'z'))

/-! ## `config.py` — the reference `TransducerConfig` data -/

/-- `(06|\+36)\d{2}[\s\-]?\d{3}[\s\-]?\d{4}` (phone numbers). -/
def phonePat : Regex :=
  .cat (.alt (strRe "06") (strRe "+36"))
    (.cat (repRe digitC 2)
      (.cat (optRe (.cls (fun c => pyIsSpace c || c = '-')))
        (.cat (repRe digitC 3)
          (.cat (optRe (.cls (fun c => pyIsSpace c || c = '-')))
            (repRe digitC 4)))))

/-- `\d+` (numbers; also house numbers). -/
def numberPat : Regex := plusRe digitC

/-- `\s?(forint|HUF|EUR|USD|dollars|euros|yen|pounds|GBP)` (currency). -/
def currencyPat : Regex :=
  .cat (optRe (.cls pyIsSpace))
    (.alt (strRe "forint") (.alt (strRe "HUF") (.alt (strRe "EUR")
      (.alt (strRe "USD") (.alt (strRe "dollars") (.alt (strRe "euros")
        (.alt (strRe "yen") (.alt (strRe "pounds") (strRe "GBP")))))))))

/-- `\d{4},?` (postal codes). -/
def postalPat : Regex := .cat (repRe digitC 4) (optRe (chR ','))

/-- `[A-Z][a-z]+(?: [A-Za-z]+)*,?` (city names). -/
def cityPat : Regex :=
  .cat upperC (.cat (plusRe lowerC)
    (.cat (.star (.cat (chR ' ') (plusRe alphaC))) (optRe (chR ','))))

/-- `[A-Za-z\s]+` (street names). -/
def streetPat : Regex := plusRe (.cls (fun c =>
  ('A' ≤ c && c ≤ 'Z') || ('a' ≤ c && c ≤ 'z') || pyIsSpace c))

/-- `(utca|tér|út|körút)` (street types). -/
def streetTypePat : Regex :=
  .alt (strRe "utca") (.alt (strRe "tér") (.alt (strRe "út") (strRe "körút")))

/-- `[A-Z][a-z]+` (person name components). -/
def personPat : Regex := .cat upperC (plusRe lowerC)

/-- `[a-zA-Z0-9._%+-]+@[a-zA-Z0-9.-]+\.[a-zA-Z]{2,}` (emails). -/
def emailPat : Regex :=
  .cat (plusRe (.cls (fun c =>
      ('a' ≤ c && c ≤ 'z') || ('A' ≤ c && c ≤ 'Z') || ('0' ≤ c && c ≤ '9') ||
      c = '.' || c = '_' || c = '%' || c = '+' || c = '-')))
    (.cat (chR '@')
      (.cat (plusRe (.cls (fun c =>
          ('a' ≤ c && c ≤ 'z') || ('A' ≤ c && c ≤ 'Z') ||
          ('0' ≤ c && c ≤ '9') || c = '.' || c = '-')))
        (.cat (chR '.') (atLeastRe (.cls (fun c =>
          ('a' ≤ c && c ≤ 'z') || ('A' ≤ c && c ≤ 'Z'))) 2))))

/-- `(\d{4}[.\-]?\d{2}[.\-]?\d{2}|\d{2}[.\-]?\d{2}[.\-]?\d{4}|\d{2}/\d{2}/\d{4})`
(dates). -/
def datePat : Regex :=
  .alt
    (.cat (repRe digitC 4) (.cat (optRe (.cls (fun c => c = '.' || c = '-')))
      (.cat (repRe digitC 2) (.cat (optRe (.cls (fun c => c = '.' || c = '-')))
        (repRe digitC 2)))))
    (.alt
      (.cat (repRe digitC 2) (.cat (optRe (.cls (fun c => c = '.' || c = '-')))
        (.cat (repRe digitC 2)
          (.cat (optRe (.cls (fun c => c = '.' || c = '-')))
            (repRe digitC 4)))))
      (.cat (repRe digitC 2) (.cat (chR '/')
        (.cat (repRe digitC 2) (.cat (chR '/') (repRe digitC 4))))))

/-- URLs (`config.py` line 101): `http` then optional `s` then `://`,
one or more host characters (letters, digits, dot, dash), then an
optional path: a slash followed by any number of letters, digits, or one
of ampersand, percent, underscore, dot, slash, dash. -/
def urlPat : Regex :=
  .cat (strRe "http") (.cat (optRe (chR 's')) (.cat (strRe "://")
    (.cat (plusRe (.cls (fun c =>
        ('A' ≤ c && c ≤ 'Z') || ('a' ≤ c && c ≤ 'z') ||
        ('0' ≤ c && c ≤ '9') || c = '.' || c = '-')))
      (optRe (.cat (chR '/') (.star (.cls (fun c =>
        ('A' ≤ c && c ≤ 'Z') || ('a' ≤ c && c ≤ 'z') ||
        ('0' ≤ c && c ≤ '9') || c = '&' || c = '%' || c = '_' || c = '.' ||
        c = '/' || c = '-'))))))))

/-- The dict literal built by `TransducerConfig.__init__`: the `states`
list, `initial_state = "q0"`, and the 14 transitions in declaration
order. -/
def referenceConfig : Config where
  states :=
    [("q0", false), ("q1_person", false), ("q_date", true),
     ("q2_person", true), ("q_email", true), ("q_phone", true),
     ("q_url", true), ("q_number", false), ("q_currency", true),
     ("q_postalcode", false), ("q_city", false), ("q_street", false),
     ("q_street_type", false), ("q_address", true)]
  initial_state := "q0"
  transitions :=
    [("q0", .ok phonePat, "q_phone", some "PHONE_NUMBER"),
     ("q0", .ok numberPat, "q_number", none),
     ("q_number", .ok currencyPat, "q_currency", some "PRICE"),
     ("q0", .ok postalPat, "q_postalcode", some "POSTALCODE"),
     ("q_postalcode", .ok cityPat, "q_city", some "CITY"),
     ("q_city", .ok streetPat, "q_street", some "ADDRESS"),
     ("q_street", .ok streetTypePat, "q_street_type", some "ADDRESS"),
     ("q_street_type", .ok numberPat, "q_address", some "ADDRESS"),
     ("q0", .ok personPat, "q1_person", none),
     ("q1_person", .ok personPat, "q1_person", some "PERSON"),
     ("q1_person", .ok personPat, "q2_person", some "PERSON"),
     ("q0", .ok emailPat, "q_email", some "EMAIL"),
     ("q0", .ok datePat, "q_date", some "DATE"),
     ("q0", .ok urlPat, "q_url", some "URL")]

/-! ## Observation helpers (projections used by closed statements) -/

/-- Build the transducer from a configuration and return only whether
construction succeeded (discards the non-decidable `State` functions). -/
def constructionOk (cfg : Config) : Bool :=
  match FiniteStateTransducer.init cfg with
  | .ok _ => true
  | .error _ => false

/-- Build the transducer, process one input, and return only the emitted
result spans. -/
def initProcessResults (cfg : Config) (input : String) :
    Except Err (List (String × String)) :=
  match FiniteStateTransducer.init cfg with
  | .error e => .error e
  | .ok fst => (fst.process input).map Prod.fst

/-- Build the transducer, process one input, and return the name of the
state the cursor is left in. -/
def initProcessCurrent (cfg : Config) (input : String) : Except Err String :=
  match FiniteStateTransducer.init cfg with
  | .error e => .error e
  | .ok fst =>
      match fst.process input with
      | .error e => .error e
      | .ok (_, fst') => .ok fst'.current_state

/-- Build the transducer and run two successive `__process` calls on the
same instance; return both result lists and the state the cursor was in
between the calls. -/
def twoCallResults (cfg : Config) (in1 in2 : String) :
    Except Err (List (String × String) × List (String × String) × String) :=
  match FiniteStateTransducer.init cfg with
  | .error e => .error e
  | .ok fst =>
      match fst.process in1 with
      | .error e => .error e
      | .ok (r1, fst1) =>
          match fst1.process in2 with
          | .error e => .error e
          | .ok (r2, _) => .ok (r1, r2, fst1.current_state)

/-- Build the transducer from a configuration and evaluate
`get_next_state` of the named state on one token. -/
def initGns (cfg : Config) (stName tok : String) :
    Except Err (Option String × Option String) :=
  match FiniteStateTransducer.init cfg with
  | .error e => .error e
  | .ok fst =>
      match dictGet? fst.states stName with
      | none => .error (.keyError stName)
      | some st => st.get_next_state tok

/-! ## Concrete data used by witness and counterexample statements -/

/-- A state with no outgoing transitions. -/
def wState : StateData := ⟨"q0", false, []⟩

/-- A one-state dict. -/
def wDict : Dict := [("q0", wState)]

/-- A transducer over `wDict`, positioned at `"q0"`. -/
def wFst : FiniteStateTransducer := ⟨wDict, "q0"⟩

/-- A configuration whose initial state is named `"start"`, not `"q0"`,
while a (different) state named `"q0"` also exists. -/
def c1cexCfg : Config := ⟨[("start", false), ("q0", false)], "start", []⟩

/-- A configuration carrying an uncompilable transition pattern. -/
def c2cexCfg : Config :=
  ⟨[("q0", false)], "q0", [("q0", Pattern.invalid, "q0", none)]⟩

/-- A configuration whose initial state names no configured state. -/
def c2errCfg : Config := ⟨[], "q0", []⟩

/-- A state whose first transition pattern is uncompilable. -/
def c2invSt : StateData := ⟨"q0", false, [(Pattern.invalid, "q0", none)]⟩

/-- A minimal configuration with initial state `"q0"`. -/
def c4cfg : Config := ⟨[("q0", false)], "q0", []⟩

/-- The transducer `FiniteStateTransducer.init c4cfg` evaluates to. -/
def c4fst : FiniteStateTransducer := ⟨[("q0", wState)], "q0"⟩

/-- First transition of the C6 demonstration state: pattern `a`. -/
def c6t1 : Pattern × String × Option String :=
  (Pattern.ok (chR 'a'), "s1", some "X")

/-- Second transition of the C6 demonstration state: pattern `b`. -/
def c6t2 : Pattern × String × Option String := (Pattern.ok (chR 'b'), "s2", none)

/-- A state with two transitions, only the second of which matches
`"b"`. -/
def c6St : StateData := ⟨"s", false, [c6t1, c6t2]⟩

/-- A configuration whose single transition names an unknown target
state. -/
def c7cfg : Config :=
  ⟨[("q0", false)], "q0", [("q0", Pattern.ok (chR 'a'), "missing", none)]⟩

/-- Transition list shared verbatim by the two C9 configurations. -/
def c9trans : List (String × Pattern × String × Option String) :=
  [("q0", Pattern.ok (chR 'a'), "q1", some "A")]

/-- C9 configuration, first choice of `is_final` values. -/
def c9cfgA : Config := ⟨[("q0", false), ("q1", true)], "q0", c9trans⟩

/-- C9 configuration, the opposite `is_final` values, all else equal. -/
def c9cfgB : Config := ⟨[("q0", true), ("q1", false)], "q0", c9trans⟩

/-! ## `is_final` erasure (verification artifact for C9) -/

/-- Erase the stored-but-never-read `is_final` flag of one state. -/
def eF (s : StateData) : StateData := { s with is_final := false }

/-- Erase every `is_final` flag in a states dict. -/
def eD (d : Dict) : Dict := d.map (fun kv => (kv.1, eF kv.2))

end NerFst

namespace NerFst

/-! ## Helper lemmas -/

/-- `dictGet?` succeeds exactly on stored keys. -/
theorem dictGet_isSome_iff_mem (d : Dict) (k : String) :
    (dictGet? d k).isSome = true ↔ k ∈ d.map Prod.fst := by
  induction d with
  | nil => simp [dictGet?]
  | cons kv rest ih =>
      obtain ⟨k', v⟩ := kv
      by_cases h : k' = k
      · subst h; simp [dictGet?]
      · simp [dictGet?, h, ih, Ne.symm h]

/-- Keys after a `dictSet`. -/
theorem dictSet_mem (d : Dict) (k m : String) (v : StateData) :
    m ∈ (dictSet d k v).map Prod.fst ↔ m = k ∨ m ∈ d.map Prod.fst := by
  induction d with
  | nil => simp [dictSet]
  | cons kv rest ih =>
      obtain ⟨k', v'⟩ := kv
      by_cases h : k' = k
      · subst h
        unfold dictSet
        rw [if_pos rfl]
        simp only [List.map_cons, List.mem_cons]
        tauto
      · unfold dictSet
        rw [if_neg h]
        simp only [List.map_cons, List.mem_cons, ih]
        tauto

/-- Keys after `addStates`. -/
theorem addStates_mem (ss : List (String × Bool)) (d : Dict) (m : String) :
    m ∈ (addStates d ss).map Prod.fst ↔
      m ∈ d.map Prod.fst ∨ m ∈ ss.map Prod.fst := by
  induction ss generalizing d with
  | nil => simp [addStates]
  | cons sv rest ih =>
      obtain ⟨nm, fin⟩ := sv
      show m ∈ (addStates (dictSet d nm ⟨nm, fin, []⟩) rest).map Prod.fst ↔ _
      rw [ih, dictSet_mem]
      simp only [List.map_cons, List.mem_cons]
      tauto

/-- A successful `__add_transition` resolved both endpoints and did not
change the key set. -/
theorem addTransitionD_ok (d d' : Dict) (f : String) (p : Pattern)
    (t : String) (o : Option String)
    (h : addTransitionD d f p t o = .ok d') :
    f ∈ d.map Prod.fst ∧ t ∈ d.map Prod.fst ∧
      (∀ m, m ∈ d'.map Prod.fst ↔ m ∈ d.map Prod.fst) := by
  unfold addTransitionD at h
  cases hf : dictGet? d f with
  | none => rw [hf] at h; exact absurd h (by simp)
  | some fromSt =>
      rw [hf] at h
      cases ht : dictGet? d t with
      | none => rw [ht] at h; exact absurd h (by simp)
      | some toSt =>
          rw [ht] at h
          have hfm : f ∈ d.map Prod.fst :=
            (dictGet_isSome_iff_mem d f).mp (by rw [hf]; rfl)
          have htm : t ∈ d.map Prod.fst :=
            (dictGet_isSome_iff_mem d t).mp (by rw [ht]; rfl)
          refine ⟨hfm, htm, ?_⟩
          have hd' : d' = dictSet d f (fromSt.add_transition p t o) := by
            injection h with h'; exact h'.symm
          intro m
          rw [hd', dictSet_mem]
          constructor
          · rintro (rfl | hm)
            · exact hfm
            · exact hm
          · exact Or.inr

/-- A failed `__add_transition` raises a `KeyError`. -/
theorem addTransitionD_error (d : Dict) (f : String) (p : Pattern)
    (t : String) (o : Option String) (e : Err)
    (h : addTransitionD d f p t o = .error e) : ∃ k, e = .keyError k := by
  unfold addTransitionD at h
  cases hf : dictGet? d f with
  | none => rw [hf] at h; injection h with h'; exact ⟨f, h'.symm⟩
  | some fromSt =>
      rw [hf] at h
      cases ht : dictGet? d t with
      | none => rw [ht] at h; injection h with h'; exact ⟨t, h'.symm⟩
      | some toSt => rw [ht] at h; exact absurd h (by simp)

/-- A successful `__setup_transitions` resolved every endpoint of every
configured transition in the starting dict, and did not change the key
set. -/
theorem addTransitions_ok (trs : List (String × Pattern × String × Option String))
    (d d' : Dict) (h : addTransitions d trs = .ok d') :
    (∀ tr ∈ trs, tr.1 ∈ d.map Prod.fst ∧ tr.2.2.1 ∈ d.map Prod.fst) ∧
      (∀ m, m ∈ d'.map Prod.fst ↔ m ∈ d.map Prod.fst) := by
  induction trs generalizing d with
  | nil =>
      refine ⟨by simp, ?_⟩
      unfold addTransitions at h
      injection h with h'
      subst h'; intro m; rfl
  | cons tr rest ih =>
      obtain ⟨f, p, t, o⟩ := tr
      unfold addTransitions at h
      cases h1 : addTransitionD d f p t o with
      | error e => rw [h1] at h; exact absurd h (by simp)
      | ok d1 =>
          rw [h1] at h
          obtain ⟨hf, ht, hkeys⟩ := addTransitionD_ok d d1 f p t o h1
          obtain ⟨hall, hkeys'⟩ := ih d1 h
          refine ⟨?_, fun m => (hkeys' m).trans (hkeys m)⟩
          intro tr htr
          rcases List.mem_cons.mp htr with rfl | htr'
          · exact ⟨hf, ht⟩
          · obtain ⟨h1', h2'⟩ := hall tr htr'
            exact ⟨(hkeys _).mp h1', (hkeys _).mp h2'⟩

/-- A failed `__setup_transitions` raises a `KeyError`. -/
theorem addTransitions_error
    (trs : List (String × Pattern × String × Option String)) (d : Dict)
    (e : Err) (h : addTransitions d trs = .error e) : ∃ k, e = .keyError k := by
  induction trs generalizing d with
  | nil => exact absurd h (by simp [addTransitions])
  | cons tr rest ih =>
      obtain ⟨f, p, t, o⟩ := tr
      unfold addTransitions at h
      cases h1 : addTransitionD d f p t o with
      | error e1 =>
          rw [h1] at h
          injection h with h'
          subst h'
          exact addTransitionD_error d f p t o e1 h1
      | ok d1 => rw [h1] at h; exact ih d1 h

/-- Transitions already scanned without a full match are skipped. -/
theorem scanTransitions_skip (token : String)
    (pre l : List (Pattern × String × Option String))
    (h : ∀ tr ∈ pre, reFullmatch tr.1 token = .ok false) :
    scanTransitions (pre ++ l) token = scanTransitions l token := by
  induction pre with
  | nil => rfl
  | cons tr rest ih =>
      obtain ⟨p, nxt, out⟩ := tr
      have hp : reFullmatch p token = .ok false := h (p, nxt, out) (by simp)
      have hrest : ∀ tr ∈ rest, reFullmatch tr.1 token = .ok false :=
        fun tr htr => h tr (List.mem_cons_of_mem _ htr)
      simp only [List.cons_append, scanTransitions, hp]
      exact ih hrest

/-- A scan over transitions none of which fully matches yields
`(None, None)`. -/
theorem scanTransitions_none (token : String)
    (l : List (Pattern × String × Option String))
    (h : ∀ tr ∈ l, reFullmatch tr.1 token = .ok false) :
    scanTransitions l token = .ok (none, none) := by
  have := scanTransitions_skip token l [] h
  simpa using this

/-- `flushOf` emits exactly one span when the buffer is non-empty and the
pending label is present (truthy), and nothing otherwise. -/
theorem flushOf_spec (ls : LoopState) :
    (∃ c, ls.category = some c ∧ c ≠ "" ∧ ls.buffer ≠ [] ∧
       flushOf ls = ls.results ++ [(String.intercalate " " ls.buffer, c)]) ∨
    ((ls.buffer = [] ∨ ls.category = none ∨ ls.category = some "") ∧
       flushOf ls = ls.results) := by
  unfold flushOf truthy
  cases hc : ls.category with
  | none =>
      right
      refine ⟨Or.inr (Or.inl rfl), ?_⟩
      simp
  | some c =>
      by_cases hce : c = ""
      · subst hce
        right
        refine ⟨Or.inr (Or.inr rfl), ?_⟩
        simp
      · cases hb : ls.buffer with
        | nil =>
            right
            refine ⟨Or.inl rfl, ?_⟩
            simp
        | cons x xs =>
            left
            refine ⟨c, rfl, hce, by simp [hb], ?_⟩
            simp [hb, hce, Option.getD]

/-- The run-loop step on a successful match: advance, append the token,
overwrite the label if the transition carries a truthy one. -/
theorem stepToken_match (d : Dict) (ls : LoopState) (t : String)
    (cur : StateData) (nxt : String) (out : Option String)
    (hc : dictGet? d ls.current = some cur)
    (hm : cur.get_next_state t = .ok (some nxt, out)) :
    stepToken d ls t =
      .ok ⟨nxt, ls.buffer ++ [t],
           if truthy out then out else ls.category, ls.results⟩ := by
  unfold stepToken
  rw [hc]
  dsimp only
  rw [hm]

/-- The run-loop step when the match fails and no state is named `"q0"`:
the hard-coded reset lookup raises `KeyError("q0")`. -/
theorem stepToken_fail_noq0 (d : Dict) (ls : LoopState) (t : String)
    (cur : StateData) (o1 : Option String)
    (hc : dictGet? d ls.current = some cur)
    (hf : cur.get_next_state t = .ok (none, o1))
    (hq : dictGet? d "q0" = none) :
    stepToken d ls t = .error (.keyError "q0") := by
  unfold stepToken
  rw [hc]
  dsimp only
  rw [hf]
  dsimp only
  rw [hq]

/-- The run-loop step when the match fails and the single retry from the
reset state `"q0"` matches: flush, then the normal match update applied
to the reset cursor. -/
theorem stepToken_fail_retry_match (d : Dict) (ls : LoopState) (t : String)
    (cur q0st : StateData) (nxt : String) (o1 out : Option String)
    (hc : dictGet? d ls.current = some cur)
    (hf : cur.get_next_state t = .ok (none, o1))
    (hq : dictGet? d "q0" = some q0st)
    (hm : q0st.get_next_state t = .ok (some nxt, out)) :
    stepToken d ls t =
      .ok ⟨nxt, [t], if truthy out then out else none, flushOf ls⟩ := by
  unfold stepToken
  rw [hc]
  dsimp only
  rw [hf]
  dsimp only
  rw [hq]
  dsimp only
  rw [hm]

/-- The run-loop step when the match fails and the single retry also
fails: flush, and the cursor stays at the reset `("q0", [], None)`. -/
theorem stepToken_fail_retry_fail (d : Dict) (ls : LoopState) (t : String)
    (cur q0st : StateData) (o1 o2 : Option String)
    (hc : dictGet? d ls.current = some cur)
    (hf : cur.get_next_state t = .ok (none, o1))
    (hq : dictGet? d "q0" = some q0st)
    (hm : q0st.get_next_state t = .ok (none, o2)) :
    stepToken d ls t = .ok ⟨"q0", [], none, flushOf ls⟩ := by
  unfold stepToken
  rw [hc]
  dsimp only
  rw [hf]
  dsimp only
  rw [hq]
  dsimp only
  rw [hm]

/-- The run-loop step when the match fails and the retry pattern scan
raises `re.error`: the exception propagates. -/
theorem stepToken_fail_retry_error (d : Dict) (ls : LoopState) (t : String)
    (cur q0st : StateData) (o1 : Option String) (e : Err)
    (hc : dictGet? d ls.current = some cur)
    (hf : cur.get_next_state t = .ok (none, o1))
    (hq : dictGet? d "q0" = some q0st)
    (hm : q0st.get_next_state t = .error e) :
    stepToken d ls t = .error e := by
  unfold stepToken
  rw [hc]
  dsimp only
  rw [hf]
  dsimp only
  rw [hq]
  dsimp only
  rw [hm]

/-- Restatement of `flushOf_spec` for an arbitrary list known to equal
the flush result. -/
theorem flush_results_spec (ls : LoopState) (rs : List (String × String))
    (h : rs = flushOf ls) :
    (∃ c, ls.category = some c ∧ c ≠ "" ∧ ls.buffer ≠ [] ∧
       rs = ls.results ++ [(String.intercalate " " ls.buffer, c)]) ∨
    ((ls.buffer = [] ∨ ls.category = none ∨ ls.category = some "") ∧
       rs = ls.results) := by
  subst h
  exact flushOf_spec ls

/-! ## Claim theorems -/

/-- C10: calling the transducer with any `process` argument other than
`"NER"` raises `ValueError`; the `ValueError` is raised before `__process`
runs, so no token is consumed and (the instance being returned unchanged
only on success) no cursor field is written. -/
theorem call_rejects_non_ner (fst : FiniteStateTransducer) (process : String)
    (input_text : Option String) (h : process ≠ "NER") :
    fst.call process input_text = .error .valueError := by
  unfold FiniteStateTransducer.call
  rw [if_neg h]

/-- Witness for C10 at the concrete process name `"TAGGER"`. -/
theorem call_rejects_non_ner_witness :
    "TAGGER" ≠ "NER" ∧ wFst.call "TAGGER" (some "x") = .error .valueError :=
  ⟨by decide, call_rejects_non_ner wFst "TAGGER" (some "x") (by decide)⟩

/-- C8: on the reference configuration,
`"Contact john@example.com today"` produces exactly
`[("john@example.com", "EMAIL")]`, and the step-by-step narrative holds:
`"Contact"` takes the unlabeled person transition from `q0`;
`"john@example.com"` fails from `q1_person` (so the unlabeled buffer is
discarded) and matches the `EMAIL` transition on the retry from the reset
state; `"today"` fails from `q_email` and fails again on its single
retry, so it is dropped. -/
theorem reference_scenario_contact_email_today :
    initProcessResults referenceConfig "Contact john@example.com today" =
      .ok [("john@example.com", "EMAIL")] ∧
    initGns referenceConfig "q0" "Contact" = .ok (some "q1_person", none) ∧
    initGns referenceConfig "q1_person" "john@example.com" =
      .ok (none, none) ∧
    initGns referenceConfig "q0" "john@example.com" =
      .ok (some "q_email", some "EMAIL") ∧
    initGns referenceConfig "q_email" "today" = .ok (none, none) ∧
    initGns referenceConfig "q0" "today" = .ok (none, none) :=
  ⟨by decide, by decide, by decide, by decide, by decide, by decide⟩

/-- C1 counterexample: on a table whose configured initial state is
`"start"`, a failed match leaves the cursor at the state named `"q0"`,
not at the configured initial state — the reset target is the hard-coded
name `"q0"` (`fst.py` line 144), refuting the claim as stated for
arbitrary tables. -/
theorem reset_ignores_configured_initial_cex :
    initProcessCurrent c1cexCfg "x" = .ok "q0" ∧
    c1cexCfg.initial_state = "start" ∧ ("q0" : String) ≠ "start" :=
  ⟨by decide, rfl, by decide⟩

/-- C1 (amended): when a token fails to match from the current state, the
run loop resets the cursor to the state stored under the fixed name
`"q0"` — raising `KeyError` when no such state exists — with an empty
buffer and absent pending label, unconditionally, before the single retry
of that token; this coincides with the configured initial state exactly
when that state is named `"q0"`. -/
theorem reset_targets_q0 (d : Dict) (ls : LoopState) (t : String)
    (cur : StateData) (hc : dictGet? d ls.current = some cur)
    (hf : cur.get_next_state t = .ok (none, none)) :
    (dictGet? d "q0" = none → stepToken d ls t = .error (.keyError "q0")) ∧
    (∀ q0st, dictGet? d "q0" = some q0st →
       (q0st.get_next_state t = .ok (none, none) →
          stepToken d ls t = .ok ⟨"q0", [], none, flushOf ls⟩) ∧
       (∀ nxt out, q0st.get_next_state t = .ok (some nxt, out) →
          stepToken d ls t =
            .ok ⟨nxt, [t], if truthy out then out else none, flushOf ls⟩)) :=
  ⟨fun hq => stepToken_fail_noq0 d ls t cur none hc hf hq,
   fun q0st hq =>
     ⟨fun hm => stepToken_fail_retry_fail d ls t cur q0st none none hc hf hq hm,
      fun nxt out hm =>
        stepToken_fail_retry_match d ls t cur q0st nxt none out hc hf hq hm⟩⟩

/-- Witness for the amended C1: a concrete failing step resets to
`("q0", [], None)` and the failed retry leaves the cursor there. -/
theorem reset_targets_q0_witness :
    dictGet? wDict "q0" = some wState ∧
    wState.get_next_state "x" = .ok (none, none) ∧
    ((dictGet? wDict "q0" = none →
        stepToken wDict ⟨"q0", ["a"], some "L", []⟩ "x" =
          .error (.keyError "q0")) ∧
     (∀ q0st, dictGet? wDict "q0" = some q0st →
        (q0st.get_next_state "x" = .ok (none, none) →
           stepToken wDict ⟨"q0", ["a"], some "L", []⟩ "x" =
             .ok ⟨"q0", [], none, flushOf ⟨"q0", ["a"], some "L", []⟩⟩) ∧
        (∀ nxt out, q0st.get_next_state "x" = .ok (some nxt, out) →
           stepToken wDict ⟨"q0", ["a"], some "L", []⟩ "x" =
             .ok ⟨nxt, ["x"], if truthy out then out else none,
                  flushOf ⟨"q0", ["a"], some "L", []⟩⟩))) :=
  ⟨rfl, by decide,
   reset_targets_q0 wDict ⟨"q0", ["a"], some "L", []⟩ "x" wState rfl
     (by decide)⟩

/-- C2 counterexample: a configuration whose only transition pattern is
uncompilable constructs without any error, and the failure surfaces only
at match time (as `re.error`) when a token is tested against the
pattern — refuting construction-time compilation. -/
theorem invalid_pattern_deferred_cex :
    constructionOk c2cexCfg = true ∧
    initProcessResults c2cexCfg "x" = .error .reError :=
  ⟨rfl, by decide⟩

/-- C2 (amended): transition patterns are stored uncompiled; construction
can only fail with `KeyError` (unresolved state names), never with a
regex error, and a state whose transition scan reaches an invalid pattern
raises `re.error` at match time, when a token is tested against it. -/
theorem patterns_not_compiled_at_construction :
    (∀ (cfg : Config) (e : Err),
       FiniteStateTransducer.init cfg = .error e → ∃ k, e = .keyError k) ∧
    (∀ (st : StateData) (token nxt : String) (out : Option String)
       (rest : List (Pattern × String × Option String)),
       st.transitions = (Pattern.invalid, nxt, out) :: rest →
       st.get_next_state token = .error .reError) := by
  constructor
  · intro cfg e h
    unfold FiniteStateTransducer.init at h
    dsimp only at h
    cases h1 : addTransitions (addStates [] cfg.states) cfg.transitions with
    | error e1 =>
        rw [h1] at h
        dsimp only at h
        injection h with h'
        subst h'
        exact addTransitions_error _ _ _ h1
    | ok d' =>
        rw [h1] at h
        dsimp only at h
        cases h2 : dictGet? d' cfg.initial_state with
        | none =>
            rw [h2] at h
            dsimp only at h
            injection h with h'
            exact ⟨cfg.initial_state, h'.symm⟩
        | some st =>
            rw [h2] at h
            exact absurd h (by simp)
  · intro st token nxt out rest h
    unfold StateData.get_next_state
    rw [h]
    rfl

/-- Witness for the amended C2: a concrete construction failure is a
`KeyError`, and a concrete state whose first pattern is invalid errors at
match time. -/
theorem patterns_not_compiled_at_construction_witness :
    FiniteStateTransducer.init c2errCfg = .error (.keyError "q0") ∧
    (∃ k, Err.keyError "q0" = Err.keyError k) ∧
    c2invSt.transitions = (Pattern.invalid, "q0", none) :: [] ∧
    c2invSt.get_next_state "token" = .error .reError :=
  ⟨rfl, patterns_not_compiled_at_construction.1 c2errCfg _ rfl, rfl,
   patterns_not_compiled_at_construction.2 c2invSt "token" "q0" none [] rfl⟩

/-- C6: `get_next_state` scans this state's transitions in declaration
order and returns the target and label of the first transition whose
pattern fully matches the whole token (`reFullmatch tr = ok true`); when
every transition's pattern fails to fully match, it returns
`(None, None)`.  It is a pure function of the state and token (it is a
Lean function of exactly those arguments, touching no other state). -/
theorem get_next_state_first_match :
    (∀ (st : StateData) (token : String)
       (pre : List (Pattern × String × Option String)) (p : Pattern)
       (nxt : String) (out : Option String)
       (rest : List (Pattern × String × Option String)),
       st.transitions = pre ++ (p, nxt, out) :: rest →
       (∀ tr ∈ pre, reFullmatch tr.1 token = .ok false) →
       reFullmatch p token = .ok true →
       st.get_next_state token = .ok (some nxt, out)) ∧
    (∀ (st : StateData) (token : String),
       (∀ tr ∈ st.transitions, reFullmatch tr.1 token = .ok false) →
       st.get_next_state token = .ok (none, none)) := by
  constructor
  · intro st token pre p nxt out rest htr hpre hp
    unfold StateData.get_next_state
    rw [htr, scanTransitions_skip token pre _ hpre]
    unfold scanTransitions
    rw [hp]
  · intro st token h
    unfold StateData.get_next_state
    exact scanTransitions_none token _ h

/-- Witness for C6: on the two-transition demonstration state, the first
transition fails on `"b"`, the second fully matches, and the scan returns
the second transition's target and (absent) label. -/
theorem get_next_state_first_match_witness :
    c6St.transitions = [c6t1] ++ (Pattern.ok (chR 'b'), "s2", none) :: [] ∧
    (∀ tr ∈ [c6t1], reFullmatch tr.1 "b" = .ok false) ∧
    reFullmatch (Pattern.ok (chR 'b')) "b" = .ok true ∧
    c6St.get_next_state "b" = .ok (some "s2", none) :=
  ⟨rfl, by decide, by decide,
   get_next_state_first_match.1 c6St "b" [c6t1] (Pattern.ok (chR 'b')) "s2"
     none [] rfl (by decide) (by decide)⟩

/-- C4: on a constructed transducer whose configured initial state is
named `"q0"` (as in the shipped configuration), after a token fails to
match and the cursor is reset, exactly one retry of that same token is
attempted against the initial state: if the retry matches, the normal
match update is applied (to the reset cursor); if it also fails, the
token is dropped — it joins no buffer and emits nothing beyond the flush
that already happened — and the loop continues with the next tokens from
the still-reset initial state.  The step's outcome is fully determined by
that single retry call, so no further retries occur. -/
theorem single_retry_semantics (cfg : Config) (fst : FiniteStateTransducer)
    (ls : LoopState) (t : String) (cur q0st : StateData)
    (_hmk : FiniteStateTransducer.init cfg = .ok fst)
    (hinit : cfg.initial_state = "q0")
    (hc : dictGet? fst.states ls.current = some cur)
    (hf : cur.get_next_state t = .ok (none, none))
    (hq : dictGet? fst.states cfg.initial_state = some q0st) :
    (∀ nxt out, q0st.get_next_state t = .ok (some nxt, out) →
       stepToken fst.states ls t =
         .ok ⟨nxt, [t], if truthy out then out else none, flushOf ls⟩) ∧
    (q0st.get_next_state t = .ok (none, none) →
       stepToken fst.states ls t =
         .ok ⟨cfg.initial_state, [], none, flushOf ls⟩ ∧
       ∀ ts, runTokens fst.states ls (t :: ts) =
         runTokens fst.states ⟨cfg.initial_state, [], none, flushOf ls⟩ ts) := by
  rw [hinit] at hq
  rw [hinit]
  constructor
  · intro nxt out hm
    exact stepToken_fail_retry_match _ _ _ _ _ _ none out hc hf hq hm
  · intro hm
    have hstep := stepToken_fail_retry_fail _ _ _ _ _ none none hc hf hq hm
    refine ⟨hstep, fun ts => ?_⟩
    show (match stepToken fst.states ls t with
          | .error e => .error e
          | .ok ls' => runTokens fst.states ls' ts) =
      runTokens fst.states ⟨"q0", [], none, flushOf ls⟩ ts
    rw [hstep]

/-- Witness for C4: a concrete failing token on a one-state transducer is
retried once against the initial state, fails again, and is dropped. -/
theorem single_retry_semantics_witness :
    FiniteStateTransducer.init c4cfg = .ok c4fst ∧
    c4cfg.initial_state = "q0" ∧
    dictGet? c4fst.states "q0" = some wState ∧
    wState.get_next_state "x" = .ok (none, none) ∧
    ((∀ nxt out, wState.get_next_state "x" = .ok (some nxt, out) →
        stepToken c4fst.states ⟨"q0", ["a"], some "L", []⟩ "x" =
          .ok ⟨nxt, ["x"], if truthy out then out else none,
               flushOf ⟨"q0", ["a"], some "L", []⟩⟩) ∧
     (wState.get_next_state "x" = .ok (none, none) →
        stepToken c4fst.states ⟨"q0", ["a"], some "L", []⟩ "x" =
          .ok ⟨c4cfg.initial_state, [], none,
               flushOf ⟨"q0", ["a"], some "L", []⟩⟩ ∧
        ∀ ts, runTokens c4fst.states ⟨"q0", ["a"], some "L", []⟩ ("x" :: ts) =
          runTokens c4fst.states
            ⟨c4cfg.initial_state, [], none,
             flushOf ⟨"q0", ["a"], some "L", []⟩⟩ ts)) :=
  ⟨rfl, rfl, rfl, by decide,
   single_retry_semantics c4cfg c4fst ⟨"q0", ["a"], some "L", []⟩ "x" wState
     wState rfl rfl rfl (by decide) rfl⟩

/-- C5: result spans are emitted only at a failed-match event or by the
final flush after the last token, and only when the buffer is non-empty
and the pending label is present (a truthy string); the span is the
buffered tokens joined by single spaces, paired with that label.  A
successful match emits nothing, and a failed match over an unlabeled (or
empty) buffer emits nothing — the buffer is discarded. -/
theorem emission_rule :
    (∀ (d : Dict) (ls ls' : LoopState) (t : String) (cur : StateData),
       dictGet? d ls.current = some cur →
       stepToken d ls t = .ok ls' →
       ((∀ nxt out, cur.get_next_state t = .ok (some nxt, out) →
           ls'.results = ls.results) ∧
        (cur.get_next_state t = .ok (none, none) →
           ((∃ c, ls.category = some c ∧ c ≠ "" ∧ ls.buffer ≠ [] ∧
               ls'.results = ls.results ++
                 [(String.intercalate " " ls.buffer, c)]) ∨
            ((ls.buffer = [] ∨ ls.category = none ∨ ls.category = some "") ∧
               ls'.results = ls.results))))) ∧
    (∀ (fst : FiniteStateTransducer) (input : String) (ls : LoopState),
       runTokens fst.states
           ⟨fst.current_state, [], none, []⟩ (tokenize input) = .ok ls →
       ((∃ c, ls.category = some c ∧ c ≠ "" ∧ ls.buffer ≠ [] ∧
           (fst.process input).map Prod.fst =
             .ok (ls.results ++ [(String.intercalate " " ls.buffer, c)])) ∨
        ((ls.buffer = [] ∨ ls.category = none ∨ ls.category = some "") ∧
           (fst.process input).map Prod.fst = .ok ls.results))) := by
  constructor
  · intro d ls ls' t cur hc hstep
    constructor
    · intro nxt out hm
      rw [stepToken_match d ls t cur nxt out hc hm] at hstep
      injection hstep with h'
      rw [← h']
    · intro hfail
      cases hq : dictGet? d "q0" with
      | none =>
          rw [stepToken_fail_noq0 d ls t cur none hc hfail hq] at hstep
          exact absurd hstep (by simp)
      | some q0st =>
          cases hm : q0st.get_next_state t with
          | error e =>
              rw [stepToken_fail_retry_error d ls t cur q0st none e hc hfail
                    hq hm] at hstep
              exact absurd hstep (by simp)
          | ok pr =>
              obtain ⟨nxt?, out⟩ := pr
              cases nxt? with
              | none =>
                  rw [stepToken_fail_retry_fail d ls t cur q0st none out hc
                        hfail hq hm] at hstep
                  injection hstep with h'
                  refine flush_results_spec ls ls'.results ?_
                  rw [← h']
              | some nxt =>
                  rw [stepToken_fail_retry_match d ls t cur q0st nxt none out
                        hc hfail hq hm] at hstep
                  injection hstep with h'
                  refine flush_results_spec ls ls'.results ?_
                  rw [← h']
  · intro fst input ls h
    have hproc : fst.process input =
        .ok (flushOf ls, ⟨fst.states, ls.current⟩) := by
      unfold FiniteStateTransducer.process
      rw [h]
    have hm : (fst.process input).map Prod.fst = .ok (flushOf ls) := by
      rw [hproc]; rfl
    rcases flushOf_spec ls with ⟨c, h1, h2, h3, h4⟩ | ⟨h1, h4⟩
    · exact Or.inl ⟨c, h1, h2, h3, by rw [hm, h4]⟩
    · exact Or.inr ⟨h1, by rw [hm, h4]⟩

/-- Witness for C5: a concrete failing step over the buffer `["a"]` with
pending label `"L"` emits exactly `("a", "L")`. -/
theorem emission_rule_witness :
    dictGet? wDict "q0" = some wState ∧
    stepToken wDict ⟨"q0", ["a"], some "L", []⟩ "x" =
      .ok ⟨"q0", [], none, [("a", "L")]⟩ ∧
    ((∀ nxt out, wState.get_next_state "x" = .ok (some nxt, out) →
        (⟨"q0", [], none, [("a", "L")]⟩ : LoopState).results =
          (⟨"q0", ["a"], some "L", []⟩ : LoopState).results) ∧
     (wState.get_next_state "x" = .ok (none, none) →
        ((∃ c, (⟨"q0", ["a"], some "L", []⟩ : LoopState).category = some c ∧
            c ≠ "" ∧
            (⟨"q0", ["a"], some "L", []⟩ : LoopState).buffer ≠ [] ∧
            (⟨"q0", [], none, [("a", "L")]⟩ : LoopState).results =
              (⟨"q0", ["a"], some "L", []⟩ : LoopState).results ++
                [(String.intercalate " "
                    (⟨"q0", ["a"], some "L", []⟩ : LoopState).buffer, c)]) ∨
         (((⟨"q0", ["a"], some "L", []⟩ : LoopState).buffer = [] ∨
           (⟨"q0", ["a"], some "L", []⟩ : LoopState).category = none ∨
           (⟨"q0", ["a"], some "L", []⟩ : LoopState).category = some "") ∧
          (⟨"q0", [], none, [("a", "L")]⟩ : LoopState).results =
            (⟨"q0", ["a"], some "L", []⟩ : LoopState).results)))) :=
  ⟨rfl, by decide,
   emission_rule.1 wDict ⟨"q0", ["a"], some "L", []⟩
     ⟨"q0", [], none, [("a", "L")]⟩ "x" wState rfl (by decide)⟩

/-- C3 counterexample: on the reference configuration, after a first call
on `"Contact"` (which ends with `"Contact"` buffered, no label, cursor at
`q1_person`), a second call on `"Smith"` yields `[("Smith", "PERSON")]` —
the current state persisted (from `q0`, an unlabeled path would have
produced no span at all), but the buffer did not (persistence of all
three components would have produced `[("Contact Smith", "PERSON")]`). -/
theorem buffer_label_not_persisted_cex :
    twoCallResults referenceConfig "Contact" "Smith" =
      .ok ([], [("Smith", "PERSON")], "q1_person") ∧
    twoCallResults referenceConfig "Contact" "Smith" ≠
      .ok ([], [("Contact Smith", "PERSON")], "q1_person") :=
  ⟨by decide, by decide⟩

/-- C3 (amended): across two successive `__process` calls on the same
instance, only the current state persists: the second call starts its
loop from the state the first call ended in, but with a freshly empty
buffer and absent pending label (`buffer` and `category` are locals of
`__process`), and the states table is unchanged. -/
theorem only_current_state_persists (fst fst1 : FiniteStateTransducer)
    (in1 in2 : String) (r1 : List (String × String))
    (h : fst.process in1 = .ok (r1, fst1)) :
    fst1.states = fst.states ∧
    fst1.process in2 =
      (match runTokens fst.states ⟨fst1.current_state, [], none, []⟩
           (tokenize in2) with
       | .error e => .error e
       | .ok ls => .ok (flushOf ls, ⟨fst.states, ls.current⟩)) := by
  unfold FiniteStateTransducer.process at h
  cases hr : runTokens fst.states ⟨fst.current_state, [], none, []⟩
      (tokenize in1) with
  | error e => rw [hr] at h; exact absurd h (by simp)
  | ok ls =>
      rw [hr] at h
      dsimp only at h
      injection h with h'
      have hsnd : (⟨fst.states, ls.current⟩ : FiniteStateTransducer) = fst1 :=
        congrArg Prod.snd h'
      constructor
      · rw [← hsnd]
      · rw [← hsnd]
        rfl

/-- Witness for the amended C3 on a concrete two-call run. -/
theorem only_current_state_persists_witness :
    wFst.process "x" = .ok ([], wFst) ∧
    (wFst.states = wFst.states ∧
     wFst.process "y" =
       (match runTokens wFst.states ⟨wFst.current_state, [], none, []⟩
            (tokenize "y") with
        | .error e => .error e
        | .ok ls => .ok (flushOf ls, ⟨wFst.states, ls.current⟩))) :=
  ⟨rfl, only_current_state_persists wFst wFst "x" "y" [] rfl⟩

/-- C7: a configuration in which some transition endpoint or the initial
state names no configured state makes construction raise a
`KeyError` — the construction-time configuration error — so no transducer
exists for a later processing call, and the failure is never deferred to
match time. -/
theorem unresolved_names_construction_error (cfg : Config)
    (h : (∃ tr ∈ cfg.transitions,
            tr.1 ∉ cfg.states.map Prod.fst ∨
            tr.2.2.1 ∉ cfg.states.map Prod.fst) ∨
         cfg.initial_state ∉ cfg.states.map Prod.fst) :
    ∃ k, FiniteStateTransducer.init cfg = .error (.keyError k) := by
  unfold FiniteStateTransducer.init
  dsimp only
  cases h1 : addTransitions (addStates [] cfg.states) cfg.transitions with
  | error e =>
      obtain ⟨k, rfl⟩ := addTransitions_error _ _ _ h1
      exact ⟨k, rfl⟩
  | ok d' =>
      dsimp only
      obtain ⟨hall, hkeys⟩ := addTransitions_ok _ _ _ h1
      cases h2 : dictGet? d' cfg.initial_state with
      | none => exact ⟨cfg.initial_state, rfl⟩
      | some st =>
          exfalso
          rcases h with ⟨tr, htr, hbad⟩ | hinit
          · obtain ⟨hf, ht⟩ := hall tr htr
            rcases (addStates_mem cfg.states [] tr.1).mp hf with h0 | hf'
            · exact absurd h0 (by simp)
            rcases (addStates_mem cfg.states [] tr.2.2.1).mp ht with h0 | ht'
            · exact absurd h0 (by simp)
            rcases hbad with hb | hb
            · exact hb hf'
            · exact hb ht'
          · have hmem : cfg.initial_state ∈ d'.map Prod.fst :=
              (dictGet_isSome_iff_mem _ _).mp (by rw [h2]; rfl)
            have h3 := (hkeys cfg.initial_state).mp hmem
            rcases (addStates_mem cfg.states [] cfg.initial_state).mp h3 with
              h0 | h4
            · exact absurd h0 (by simp)
            exact hinit h4

/-- Witness for C7: the configuration with an unresolved `to_state`
fails construction with a `KeyError`. -/
theorem unresolved_names_construction_error_witness :
    ((∃ tr ∈ c7cfg.transitions,
        tr.1 ∉ c7cfg.states.map Prod.fst ∨
        tr.2.2.1 ∉ c7cfg.states.map Prod.fst) ∨
      c7cfg.initial_state ∉ c7cfg.states.map Prod.fst) ∧
    (∃ k, FiniteStateTransducer.init c7cfg = .error (.keyError k)) :=
  ⟨by decide, unresolved_names_construction_error c7cfg (by decide)⟩

/-! ## `is_final` erasure lemmas (toward C9) -/

/-- Erasing `is_final` does not change what `get_next_state` computes. -/
theorem eF_gns (s : StateData) (t : String) :
    (eF s).get_next_state t = s.get_next_state t := rfl

/-- Dict reads commute with flag erasure. -/
theorem dictGet?_eD (d : Dict) (k : String) :
    dictGet? (eD d) k = (dictGet? d k).map eF := by
  induction d with
  | nil => rfl
  | cons kv rest ih =>
      obtain ⟨k', v⟩ := kv
      by_cases h : k' = k
      · subst h
        simp only [eD, List.map_cons]
        unfold dictGet?
        rw [if_pos rfl, if_pos rfl]
        rfl
      · simp only [eD, List.map_cons]
        unfold dictGet?
        rw [if_neg h, if_neg h]
        exact ih

/-- Dict writes commute with flag erasure. -/
theorem eD_dictSet (d : Dict) (k : String) (v : StateData) :
    eD (dictSet d k v) = dictSet (eD d) k (eF v) := by
  induction d with
  | nil => rfl
  | cons kv rest ih =>
      obtain ⟨k', v'⟩ := kv
      by_cases h : k' = k
      · subst h
        simp only [eD, List.map_cons]
        unfold dictSet
        rw [if_pos rfl, if_pos rfl]
        rfl
      · simp only [eD, List.map_cons]
        unfold dictSet
        rw [if_neg h, if_neg h]
        simp only [eD, List.map_cons] at ih ⊢
        rw [ih]

/-- The loop step reads nothing but names and transitions, so two dicts
with the same flag-erasure step identically. -/
theorem stepToken_eD (d1 d2 : Dict) (hd : eD d1 = eD d2) (ls : LoopState)
    (t : String) : stepToken d1 ls t = stepToken d2 ls t := by
  have hg : ∀ k, (dictGet? d1 k).map eF = (dictGet? d2 k).map eF := fun k => by
    rw [← dictGet?_eD, ← dictGet?_eD, hd]
  have hq := hg "q0"
  have hcur := hg ls.current
  unfold stepToken
  cases h1 : dictGet? d1 ls.current with
  | none =>
      rw [h1] at hcur
      cases h2 : dictGet? d2 ls.current with
      | none => rfl
      | some c2 => rw [h2] at hcur; exact absurd hcur (by simp)
  | some c1 =>
      rw [h1] at hcur
      cases h2 : dictGet? d2 ls.current with
      | none => rw [h2] at hcur; exact absurd hcur (by simp)
      | some c2 =>
          rw [h2] at hcur
          have hc : eF c1 = eF c2 := by simpa using hcur
          have hgns : c1.get_next_state t = c2.get_next_state t :=
            congrArg (fun s => s.get_next_state t) hc
          dsimp only
          rw [hgns]
          cases hm : c2.get_next_state t with
          | error e => rfl
          | ok pr =>
              obtain ⟨nxt?, out⟩ := pr
              cases nxt? with
              | some nxt => rfl
              | none =>
                  dsimp only
                  cases hq1 : dictGet? d1 "q0" with
                  | none =>
                      rw [hq1] at hq
                      cases hq2 : dictGet? d2 "q0" with
                      | none => rfl
                      | some q2 => rw [hq2] at hq; exact absurd hq (by simp)
                  | some q1 =>
                      rw [hq1] at hq
                      cases hq2 : dictGet? d2 "q0" with
                      | none => rw [hq2] at hq; exact absurd hq (by simp)
                      | some q2 =>
                          rw [hq2] at hq
                          have hcq : eF q1 = eF q2 := by simpa using hq
                          have hgns2 :
                              q1.get_next_state t = q2.get_next_state t :=
                            congrArg (fun s => s.get_next_state t) hcq
                          dsimp only
                          rw [hgns2]

/-- The whole token loop steps identically on flag-erased-equal dicts. -/
theorem runTokens_eD (d1 d2 : Dict) (hd : eD d1 = eD d2) (ls : LoopState)
    (ts : List String) : runTokens d1 ls ts = runTokens d2 ls ts := by
  induction ts generalizing ls with
  | nil => rfl
  | cons t ts ih =>
      unfold runTokens
      rw [stepToken_eD d1 d2 hd ls t]
      cases stepToken d2 ls t with
      | error e => rfl
      | ok ls' => exact ih ls'

/-- `__setup_states` on two state lists with the same names produces
dicts equal up to flag erasure. -/
theorem addStates_eD (ssA : List (String × Bool)) :
    ∀ (ssB : List (String × Bool)),
      ssA.map Prod.fst = ssB.map Prod.fst →
      ∀ dA dB, eD dA = eD dB →
        eD (addStates dA ssA) = eD (addStates dB ssB) := by
  induction ssA with
  | nil =>
      intro ssB hnames dA dB h
      cases ssB with
      | nil => exact h
      | cons b bs => exact absurd hnames (by simp)
  | cons a as ih =>
      intro ssB hnames dA dB h
      cases ssB with
      | nil => exact absurd hnames (by simp)
      | cons b bs =>
          obtain ⟨na, fa⟩ := a
          obtain ⟨nb, fb⟩ := b
          simp only [List.map_cons, List.cons.injEq] at hnames
          obtain ⟨hn, hns⟩ := hnames
          subst hn
          apply ih bs hns
          rw [eD_dictSet, eD_dictSet, h]
          rfl

/-- `__add_transition` acts identically (up to flag erasure, and with the
same raised errors) on dicts equal up to flag erasure. -/
theorem addTransitionD_eD (d1 d2 : Dict) (hd : eD d1 = eD d2) (f : String)
    (p : Pattern) (t : String) (o : Option String) :
    (addTransitionD d1 f p t o).map eD = (addTransitionD d2 f p t o).map eD := by
  have hg : ∀ k, (dictGet? d1 k).map eF = (dictGet? d2 k).map eF := fun k => by
    rw [← dictGet?_eD, ← dictGet?_eD, hd]
  have hgf := hg f
  have hgt := hg t
  unfold addTransitionD
  cases h1 : dictGet? d1 f with
  | none =>
      rw [h1] at hgf
      cases h2 : dictGet? d2 f with
      | none => rfl
      | some s2 => rw [h2] at hgf; exact absurd hgf (by simp)
  | some s1 =>
      rw [h1] at hgf
      cases h2 : dictGet? d2 f with
      | none => rw [h2] at hgf; exact absurd hgf (by simp)
      | some s2 =>
          rw [h2] at hgf
          have hs : eF s1 = eF s2 := by simpa using hgf
          dsimp only
          cases h3 : dictGet? d1 t with
          | none =>
              rw [h3] at hgt
              cases h4 : dictGet? d2 t with
              | none => rfl
              | some u2 => rw [h4] at hgt; exact absurd hgt (by simp)
          | some u1 =>
              rw [h3] at hgt
              cases h4 : dictGet? d2 t with
              | none => rw [h4] at hgt; exact absurd hgt (by simp)
              | some u2 =>
                  dsimp only [Except.map]
                  have htr : eF (s1.add_transition p t o) =
                      eF (s2.add_transition p t o) := by
                    have hn0 := congrArg (fun s => StateData.name s) hs
                    have htl0 :=
                      congrArg (fun s => StateData.transitions s) hs
                    have hn : s1.name = s2.name := hn0
                    have htl : s1.transitions = s2.transitions := htl0
                    unfold StateData.add_transition eF
                    rw [hn, htl]
                  rw [eD_dictSet, eD_dictSet, hd, htr]

/-- `__setup_transitions` acts identically (up to flag erasure) on dicts
equal up to flag erasure. -/
theorem addTransitions_eD
    (trs : List (String × Pattern × String × Option String)) :
    ∀ d1 d2, eD d1 = eD d2 →
      (addTransitions d1 trs).map eD = (addTransitions d2 trs).map eD := by
  induction trs with
  | nil =>
      intro d1 d2 h
      unfold addTransitions
      dsimp only [Except.map]
      rw [h]
  | cons tr rest ih =>
      intro d1 d2 h
      obtain ⟨f, p, t, o⟩ := tr
      unfold addTransitions
      have h1 := addTransitionD_eD d1 d2 h f p t o
      cases ha : addTransitionD d1 f p t o with
      | error e =>
          rw [ha] at h1
          cases hb : addTransitionD d2 f p t o with
          | error e2 =>
              rw [hb] at h1
              simp only [Except.map] at h1
              injection h1 with h1'
              subst h1'
              rfl
          | ok d2' => rw [hb] at h1; exact absurd h1 (by simp [Except.map])
      | ok d1' =>
          rw [ha] at h1
          cases hb : addTransitionD d2 f p t o with
          | error e2 => rw [hb] at h1; exact absurd h1 (by simp [Except.map])
          | ok d2' =>
              rw [hb] at h1
              simp only [Except.map] at h1
              injection h1 with h1'
              dsimp only
              exact ih d1' d2' h1'

/-- C9: the `is_final` flag never influences execution — for two
configurations identical except in `is_final` values (same state names in
the same order, same initial state, the same transition list), building a
fresh transducer and processing any input yields the same outcome,
result spans and raised errors included. -/
theorem is_final_irrelevant (cfgA cfgB : Config) (input : String)
    (hs : cfgA.states.map Prod.fst = cfgB.states.map Prod.fst)
    (hi : cfgA.initial_state = cfgB.initial_state)
    (ht : cfgA.transitions = cfgB.transitions) :
    initProcessResults cfgA input = initProcessResults cfgB input := by
  have hD : eD (addStates [] cfgA.states) = eD (addStates [] cfgB.states) :=
    addStates_eD cfgA.states cfgB.states hs [] [] rfl
  have hT : (addTransitions (addStates [] cfgA.states) cfgA.transitions).map eD
      = (addTransitions (addStates [] cfgB.states) cfgB.transitions).map eD := by
    rw [← ht]
    exact addTransitions_eD cfgA.transitions _ _ hD
  unfold initProcessResults FiniteStateTransducer.init
  dsimp only
  cases hA : addTransitions (addStates [] cfgA.states) cfgA.transitions with
  | error eA =>
      rw [hA] at hT
      cases hB : addTransitions (addStates [] cfgB.states) cfgB.transitions with
      | error eB =>
          rw [hB] at hT
          simp only [Except.map] at hT
          injection hT with hT'
          subst hT'
          rfl
      | ok dB' => rw [hB] at hT; exact absurd hT (by simp [Except.map])
  | ok dA' =>
      rw [hA] at hT
      cases hB : addTransitions (addStates [] cfgB.states) cfgB.transitions with
      | error eB => rw [hB] at hT; exact absurd hT (by simp [Except.map])
      | ok dB' =>
          rw [hB] at hT
          simp only [Except.map] at hT
          injection hT with hT'
          dsimp only
          rw [← hi]
          have hgi : (dictGet? dA' cfgA.initial_state).map eF =
              (dictGet? dB' cfgA.initial_state).map eF := by
            rw [← dictGet?_eD, ← dictGet?_eD, hT']
          cases h1 : dictGet? dA' cfgA.initial_state with
          | none =>
              rw [h1] at hgi
              cases h2 : dictGet? dB' cfgA.initial_state with
              | none => rfl
              | some s2 => rw [h2] at hgi; exact absurd hgi (by simp)
          | some s1 =>
              rw [h1] at hgi
              cases h2 : dictGet? dB' cfgA.initial_state with
              | none => rw [h2] at hgi; exact absurd hgi (by simp)
              | some s2 =>
                  dsimp only
                  unfold FiniteStateTransducer.process
                  dsimp only
                  rw [runTokens_eD dA' dB' hT'
                        ⟨cfgA.initial_state, [], none, []⟩ (tokenize input)]
                  cases runTokens dB' ⟨cfgA.initial_state, [], none, []⟩
                      (tokenize input) with
                  | error e => rfl
                  | ok ls => rfl

/-- Witness for C9: two concrete configurations differing exactly in
their `is_final` values process `"a"` identically. -/
theorem is_final_irrelevant_witness :
    c9cfgA.states.map Prod.fst = c9cfgB.states.map Prod.fst ∧
    c9cfgA.initial_state = c9cfgB.initial_state ∧
    c9cfgA.transitions = c9cfgB.transitions ∧
    initProcessResults c9cfgA "a" = initProcessResults c9cfgB "a" :=
  ⟨by decide, rfl, rfl,
   is_final_irrelevant c9cfgA c9cfgB "a" (by decide) rfl rfl⟩

end NerFst
